import Mathlib

/-!
# Verification of the lunchweb order-overview service

A shallow embedding of `src/main.go` (a small HTTP service that fetches a
Google-Sheets CSV, finds the row for today's date, and renders a per-person
lunch-order overview), together with theorems settling the frozen claims
about it.

Modelling conventions:
* Go strings are Lean `String`s.  Go's byte-wise lexicographic `<` on UTF-8
  strings coincides with comparison of code-point sequences (UTF-8 is
  order-preserving), which is Lean's `String` order.
* Go slices become `List`s.  An out-of-bounds index in the source is a
  runtime panic; where a claim's hypotheses rule the panic out, the model
  uses a total access (`getD`/`headD`) and the theorems carry the bounds
  hypotheses.
* `float32` arithmetic is modelled by exact rationals extended with the
  IEEE-754 special values that can arise here (`nan`, signed infinity);
  rounding is abstracted away (all claims are about the exact formula or
  about NaN, never about rounding).
-/

/-- Model of Go `unicode.IsSpace` restricted to the Latin-1 range
(`'\t'`, `'\n'`, `'\v'`, `'\f'`, `'\r'`, `' '`, U+0085, U+00A0).  The
higher Unicode space classes are omitted; no claim involves them. -/
def goIsSpace (c : Char) : Bool :=
  c == ' ' || c == '\t' || c == '\n' || c == Char.ofNat 11 ||
  c == Char.ofNat 12 || c == '\r' || c == Char.ofNat 0x85 || c == Char.ofNat 0xA0

/-- Model of Go `strings.TrimSpace`: drop leading and trailing whitespace. -/
def trimSpace (s : String) : String :=
  String.mk (((s.data.dropWhile goIsSpace).reverse.dropWhile goIsSpace).reverse)

/-- `type OrderOverview struct { Names []string; Orders []string }` -/
structure OrderOverview where
  Names : List String
  Orders : List String
deriving DecidableEq

/-- `type LineItem struct { Name string; Order string }` -/
structure LineItem where
  Name : String
  Order : String
deriving DecidableEq

/-- `func NewOrderOverview(names, orders []string) *OrderOverview` -/
def NewOrderOverview (names orders : List String) : OrderOverview :=
  ⟨names, orders⟩

/-- Strict lexicographic order on lists of naturals, mirroring Go's
element-by-element string comparison loop. -/
def lexLt : List Nat → List Nat → Bool
  | _, [] => false
  | [], _ :: _ => true
  | a :: as, b :: bs => if a < b then true else if b < a then false else lexLt as bs

/-- Go's `<` on strings compares the UTF-8 bytes lexicographically; since
UTF-8 is order-preserving, comparing the code-point sequences gives the
same order. -/
def goStrLt (a b : String) : Bool :=
  lexLt (a.data.map Char.toNat) (b.data.map Char.toNat)

theorem lexLt_asymm : ∀ as bs : List Nat, lexLt as bs = true → lexLt bs as = false := by
  intro as
  induction as with
  | nil =>
    intro bs h
    cases bs with
    | nil => simp [lexLt] at h
    | cons b bs => simp [lexLt]
  | cons a as ih =>
    intro bs h
    cases bs with
    | nil => simp [lexLt] at h
    | cons b bs =>
      simp only [lexLt] at h ⊢
      split_ifs at h ⊢ <;> first | rfl | omega | exact ih bs h

theorem lexLt_false_trans :
    ∀ (cs as bs : List Nat), lexLt bs as = false → lexLt cs bs = false →
      lexLt cs as = false := by
  intro cs
  induction cs with
  | nil =>
    intro as bs h1 h2
    cases as with
    | nil => simp [lexLt]
    | cons a as =>
      cases bs with
      | nil => simp [lexLt] at h1
      | cons b bs => simp [lexLt] at h2
  | cons c cs ih =>
    intro as bs h1 h2
    cases as with
    | nil => simp [lexLt]
    | cons a as =>
      cases bs with
      | nil => simp [lexLt] at h1
      | cons b bs =>
        simp only [lexLt] at h1 h2 ⊢
        split_ifs at h1 h2 ⊢ <;>
          first | rfl | omega | exact ih as bs h1 h2

/-- The comparator of `type ByName []*LineItem`:
`func (a ByName) Less(i, j int) bool { return a[i].Name < a[j].Name }`.
`sort.Sort` orders by this strict comparison; the sorting relation is its
reflexive negation `¬ (b < a)`, i.e. `a ≤ b` (any comparison sort produces
a list sorted for this total preorder). -/
def ByName (a b : LineItem) : Prop :=
  goStrLt b.Name a.Name = false

instance : DecidableRel ByName := fun a b =>
  inferInstanceAs (Decidable (goStrLt b.Name a.Name = false))

instance : IsTotal LineItem ByName := by
  constructor
  intro a b
  by_cases h : goStrLt b.Name a.Name = true
  · right
    exact lexLt_asymm _ _ h
  · left
    simpa [ByName] using h

instance : IsTrans LineItem ByName :=
  ⟨fun _ _ _ hab hbc => lexLt_false_trans _ _ _ hab hbc⟩

/-- The filtering loop of `OrderOverview.LineItems` before sorting:
```go
for i, name := range o.Names {
    order := strings.TrimSpace(o.Orders[i])
    if name != "" && order != "" {
        lines = append(lines, &LineItem{name, order})
    }
}
```
Note the source trims only the order, not the name, and accesses
`o.Orders[i]` (a panic when `Orders` is shorter than `Names`; `zip`
truncates instead, so theorems carry the length hypothesis). -/
def lineItemsUnsorted (o : OrderOverview) : List LineItem :=
  (o.Names.zip o.Orders).filterMap fun p =>
    let order := trimSpace p.2
    if p.1 ≠ "" ∧ order ≠ "" then some ⟨p.1, order⟩ else none

/-- `func (o *OrderOverview) LineItems() []*LineItem`: filter, then
`sort.Sort(ByName(lines))`.  Go's `sort.Sort` is an unstable comparison
sort; we model it by insertion sort (theorems state only order/multiset
facts, which hold for every comparison sort). -/
def OrderOverview.LineItems (o : OrderOverview) : List LineItem :=
  List.insertionSort ByName (lineItemsUnsorted o)

/-- `func (o *OrderOverview) MaxCount() int { return len(o.Names) }` -/
def OrderOverview.MaxCount (o : OrderOverview) : Nat :=
  o.Names.length

/-- The `float32` values reachable by the arithmetic in this program:
exact rationals (rounding abstracted), NaN and signed infinity. -/
inductive F32 where
  | nan : F32
  | inf : Bool → F32
  | val : ℚ → F32
deriving DecidableEq

/-- IEEE-754 division on the fragment of `F32` the program uses:
finite/0 is NaN when the numerator is 0, signed infinity otherwise. -/
def F32.div : F32 → F32 → F32
  | .val a, .val b =>
      if b = 0 then (if a = 0 then .nan else .inf (decide (a < 0))) else .val (a / b)
  | _, _ => .nan

/-- IEEE-754 multiplication on the finite fragment. -/
def F32.mul : F32 → F32 → F32
  | .val a, .val b => .val (a * b)
  | _, _ => .nan

/-- `func (o *OrderOverview) OrderPercent() float32`:
`return 100 * float32(len(o.LineItems())) / float32(o.MaxCount())` —
note there is no special case for `MaxCount() == 0`. -/
def OrderOverview.OrderPercent (o : OrderOverview) : F32 :=
  F32.div (F32.mul (.val 100) (.val ((o.LineItems).length : ℚ)))
    (.val ((o.MaxCount : ℚ)))

/-- `func (o *OrderOverview) Summary() string`: a `bytes.Buffer` fold
writing `fmt.Sprintf("%v: %v\n", li.Name, li.Order)` per line item. -/
def OrderOverview.Summary (o : OrderOverview) : String :=
  (o.LineItems).foldl (fun buf li => buf ++ (li.Name ++ ": " ++ li.Order ++ "\n")) ""

-- quick sanity examples (to be kept: they document the spec's scenario)
example : trimSpace " " = "" := by decide
example :
    OrderOverview.LineItems ⟨["Alice", "Bob", "Carol"], ["BLT", " ", "Soup"]⟩ =
      [⟨"Alice", "BLT"⟩, ⟨"Carol", "Soup"⟩] := by decide

/-! ## Date row matcher (`findRowForToday`) -/

/-- A calendar date, the `(year, month, day)` triple that
`time.Time.Date()` yields; the configured timezone only determines which
triple "now" denotes, so the model takes the triple directly. -/
structure Date where
  year : Nat
  month : Nat
  day : Nat
deriving DecidableEq

/-- Gregorian leap-year rule, as implemented by Go `time.isLeap`. -/
def isLeapYear (y : Nat) : Bool :=
  (y % 4 == 0 && y % 100 != 0) || y % 400 == 0

/-- Days in a month, as implemented by Go `time.daysIn`. -/
def daysInMonth (y m : Nat) : Nat :=
  if m = 2 then (if isLeapYear y then 29 else 28)
  else if m = 4 ∨ m = 6 ∨ m = 9 ∨ m = 11 then 30
  else 31

/-- The numeric value of a decimal digit, `none` on a non-digit. -/
def digitVal (c : Char) : Option Nat :=
  if c.isDigit then some (c.toNat - 48) else none

/-- Model of `time.ParseInLocation("2006-01-02", s, loc)`: the layout
demands exactly four year digits, a dash, two month digits, a dash and two
day digits, consuming the whole string; the month must be 1..12 and the
day 1..days-in-month, else Go reports a range error.  The location does
not affect the `(year, month, day)` triple of the result. -/
def parseDate (s : String) : Option Date :=
  match s.data with
  | [y1, y2, y3, y4, '-', m1, m2, '-', d1, d2] =>
    match digitVal y1, digitVal y2, digitVal y3, digitVal y4,
      digitVal m1, digitVal m2, digitVal d1, digitVal d2 with
    | some a, some b, some c, some d, some e, some f, some g, some h =>
      let y := ((a * 10 + b) * 10 + c) * 10 + d
      let m := e * 10 + f
      let dd := g * 10 + h
      if 1 ≤ m ∧ m ≤ 12 ∧ 1 ≤ dd ∧ dd ≤ daysInMonth y m then
        some ⟨y, m, dd⟩
      else none
    | _, _, _, _, _, _, _, _ => none
  | _ => none

/-- Zero-pad a number below 100 to two digits, as Go's date formatting does. -/
def pad2 (n : Nat) : String :=
  if n < 10 then "0" ++ toString n else toString n

/-- The date portion of Go's default rendering of a `time.Time`
(`"2021-01-02 15:04:05 +0100 CET"`); the model keeps the calendar date,
which is the part the claims are about. -/
def dateString (d : Date) : String :=
  toString d.year ++ "-" ++ pad2 d.month ++ "-" ++ pad2 d.day

/-- The message of `fmt.Errorf("no row found for today (%v)", now)`;
`%v` renders `now` starting with `dateString` of its date. -/
def noRowMsg (today : Date) : String :=
  "no row found for today (" ++ dateString today ++ ")"

/-- The scan loop of `findRowForToday` over the rows after the header:
parse cell 0 (`row[0]`; rows from the CSV reader always have at least one
field, and an unparseable cell — including the `""` default — is logged
and skipped), and return the first row whose parsed date equals today. -/
def findRowAux (today : Date) : List (List String) → Except String (List String)
  | [] => .error (noRowMsg today)
  | row :: rest =>
    match parseDate (row.headD "") with
    | none => findRowAux today rest
    | some d => if d = today then .ok row else findRowAux today rest

/-- `func findRowForToday(rows [][]string) ([]string, error)`: iterates
`rows[(*flagHeader + 1):]` (the caller's successful `rows[headerIndex]`
access guarantees the slice bound) comparing each parsed date's
`(year, month, day)` with today's. -/
def findRowForToday (rows : List (List String)) (headerIndex : Nat) (today : Date) :
    Except String (List String) :=
  findRowAux today (rows.drop (headerIndex + 1))

example : parseDate "2021-01-02" = some ⟨2021, 1, 2⟩ := by decide
example : parseDate "bad-date" = none := by decide
example : parseDate "2021-02-30" = none := by decide

/-! ## CSV fetcher (`CSVFromGoogleSheetsURL`)

The source delegates parsing to `encoding/csv.Reader.ReadAll()` with a
reader in its default configuration (`Comma=','`, `LazyQuotes=false`,
`TrimLeadingSpace=false`, `FieldsPerRecord=0`).  The model below embeds
that default behaviour: quoted fields with `""` escapes, `\r\n` line
endings, blank lines skipped, and — because `FieldsPerRecord=0` — every
record is required to have as many fields as the first record, else
`ErrFieldCount`. -/

/-- The parse failures of `encoding/csv` reachable under the default
configuration. -/
inductive CSVErr where
  | bareQuote : CSVErr
  | quoteErr : CSVErr
  | fieldCount : CSVErr
deriving DecidableEq

/-- Go's error strings for the `CSVErr` cases. -/
def csvErrMsg : CSVErr → String
  | .bareQuote => "bare \" in non-quoted field"
  | .quoteErr => "extraneous or missing \" in quoted-field"
  | .fieldCount => "wrong number of fields"

/-- Scan a quoted field (the opening `"` already consumed): `""` is an
escaped quote, the closing `"` must be followed by a comma, an end of
line, or the end of input (anything else is `ErrQuote`), and `\r\n`
inside the field is normalised to `\n`; EOF before the closing quote is
an error.  Returns the field, the rest of the input, and whether the
record ended. -/
def parseQuoted : List Char → List Char → Except CSVErr (List Char × List Char × Bool)
  | _, [] => .error .quoteErr
  | acc, '"' :: '"' :: rest => parseQuoted ('"' :: acc) rest
  | acc, '"' :: ',' :: rest => .ok (acc.reverse, rest, false)
  | acc, '"' :: '\r' :: '\n' :: rest => .ok (acc.reverse, rest, true)
  | acc, '"' :: '\n' :: rest => .ok (acc.reverse, rest, true)
  | acc, ['"'] => .ok (acc.reverse, [], true)
  | _, '"' :: _ :: _ => .error .quoteErr
  | acc, '\r' :: '\n' :: rest => parseQuoted ('\n' :: acc) rest
  | acc, c :: rest => parseQuoted (c :: acc) rest

/-- Scan an unquoted field up to a comma or end of line; a `"` anywhere in
it is `ErrBareQuote` (`LazyQuotes=false`), and a `\r` that ends the line
as part of `\r\n` is dropped. -/
def parseUnquoted : List Char → List Char → Except CSVErr (List Char × List Char × Bool)
  | acc, [] => .ok (acc.reverse, [], true)
  | acc, ',' :: rest => .ok (acc.reverse, rest, false)
  | acc, '\r' :: '\n' :: rest => .ok (acc.reverse, rest, true)
  | acc, '\n' :: rest => .ok (acc.reverse, rest, true)
  | _, '"' :: _ => .error .bareQuote
  | acc, c :: rest => parseUnquoted (c :: acc) rest

/-- Read one record: fields separated by commas until the line (or input)
ends.  A field starting with `"` is quoted (`TrimLeadingSpace=false`, so
only the very first character decides).  The fuel bounds the number of
fields; `length + 1` always suffices since every field consumes at least
its separator. -/
def parseRecord : Nat → List Char → Except CSVErr (List String × List Char)
  | 0, _ => .error .quoteErr
  | fuel + 1, cs =>
    match (match cs with
           | '"' :: rest => parseQuoted [] rest
           | _ => parseUnquoted [] cs) with
    | .error e => .error e
    | .ok (f, rest, true) => .ok ([String.mk f], rest)
    | .ok (f, rest, false) =>
      match parseRecord fuel rest with
      | .error e => .error e
      | .ok (fs, rest2) => .ok (String.mk f :: fs, rest2)

/-- Blank lines (`\n` or `\r\n` alone) are skipped by the reader. -/
def skipEmptyLines : List Char → List Char
  | '\n' :: rest => skipEmptyLines rest
  | '\r' :: '\n' :: rest => skipEmptyLines rest
  | cs => cs

/-- The `ReadAll` loop: read records until EOF; after the first record,
`FieldsPerRecord` is fixed to its field count and every later record must
match it or the whole call fails with `ErrFieldCount` (records read so
far are discarded).  The fuel bounds the number of records; `length + 1`
always suffices since every record consumes at least one character. -/
def readAllAux :
    Nat → List Char → Option Nat → List (List String) → Except CSVErr (List (List String))
  | 0, _, _, _ => .error .quoteErr
  | fuel + 1, cs, want, acc =>
    let cs2 := skipEmptyLines cs
    if cs2.isEmpty then .ok acc.reverse
    else
      match parseRecord (cs2.length + 1) cs2 with
      | .error e => .error e
      | .ok (flds, rest) =>
        match want with
        | none => readAllAux fuel rest (some flds.length) (flds :: acc)
        | some n =>
          if flds.length = n then readAllAux fuel rest (some n) (flds :: acc)
          else .error .fieldCount

instance {ε α : Type} [DecidableEq ε] [DecidableEq α] : DecidableEq (Except ε α) :=
  fun a b =>
    match a, b with
    | .ok x, .ok y => decidable_of_iff (x = y) (by simp)
    | .error e, .error f => decidable_of_iff (e = f) (by simp)
    | .ok _, .error _ => isFalse (by simp)
    | .error _, .ok _ => isFalse (by simp)

/-- `csv.NewReader(bytes.NewReader(body)).ReadAll()`. -/
def readAll (body : String) : Except CSVErr (List (List String)) :=
  readAllAux (body.length + 1) body.data none []

example : readAll "" = .ok [] := by decide
example : readAll "a,b\nc,d\n" = .ok [["a", "b"], ["c", "d"]] := by decide
example : readAll "a,b\nc\n" = .error .fieldCount := by decide
example : readAll "a,b\n\"c,d\",e\n" = .ok [["a", "b"], ["c,d", "e"]] := by decide

/-- The outcome of `http.Get(url)` as far as the source observes it: a
transport error (`err != nil`), or a response with a status code and a
fully read body (`ioutil.ReadAll`; a body read error is a transport-level
failure, folded into `transportError` here). -/
inductive FetchResult where
  | transportError : String → FetchResult
  | response : Nat → String → FetchResult

/-- `func CSVFromGoogleSheetsURL(url string) ([][]string, error)`: on a
transport error return it; otherwise parse the body with the CSV reader.
The source never reads `resp.StatusCode`, so the status is ignored. -/
def CSVFromGoogleSheetsURL : FetchResult → Except String (List (List String))
  | .transportError msg => .error msg
  | .response _status body =>
    match readAll body with
    | .error e => .error (csvErrMsg e)
    | .ok rows => .ok rows

/-- What the `HandleFunc("/", ...)` closure does with one request, given
the outcome of the fetch of `*flagCSVURL`:
* fetch error → `http.Error(w, "error from csv: …", 500)`;
* then `header := rows[headerIndex]` — an unguarded index: when
  `len(rows) <= headerIndex` this panics (`panicHeaderIndex`; the Go HTTP
  server recovers the panic and drops the connection, sending no 500);
* then `findRowForToday` error → `http.Error(w, "error for today's row: …", 500)`;
* else 200 with the rendered overview built from `header[1:]` / `row[1:]`
  (rendering itself is not modelled; no claim is about the template). -/
inductive HandlerOutcome where
  | errCSV : String → HandlerOutcome
  | panicHeaderIndex : HandlerOutcome
  | errToday : String → HandlerOutcome
  | ok : OrderOverview → HandlerOutcome
deriving DecidableEq

def handle (fetched : FetchResult) (headerIndex : Nat) (today : Date) : HandlerOutcome :=
  match CSVFromGoogleSheetsURL fetched with
  | .error e => .errCSV ("error from csv: " ++ e)
  | .ok rows =>
    if hlt : headerIndex < rows.length then
      let header := rows.get ⟨headerIndex, hlt⟩
      match findRowForToday rows headerIndex today with
      | .error e => .errToday ("error for today's row: " ++ e)
      | .ok row => .ok (NewOrderOverview (header.drop 1) (row.drop 1))
    else .panicHeaderIndex

/-! ## State-passing views of the pointer-receiver methods

The four methods have pointer receivers, so each could in principle write
to the receiver's fields.  Their translations below thread the receiver
explicitly and return it alongside the result; none of the method bodies
contains an assignment to `o.Names` or `o.Orders` (the only mutation in
any of them is `sort.Sort` permuting the freshly `make`d local `lines`
slice), so the returned receiver is the one that came in. -/

def OrderOverview.LineItemsSt (o : OrderOverview) : List LineItem × OrderOverview :=
  (o.LineItems, o)

def OrderOverview.MaxCountSt (o : OrderOverview) : Nat × OrderOverview :=
  (o.MaxCount, o)

def OrderOverview.OrderPercentSt (o : OrderOverview) : F32 × OrderOverview :=
  (o.OrderPercent, o)

def OrderOverview.SummarySt (o : OrderOverview) : String × OrderOverview :=
  (o.Summary, o)

/-! ## Helper lemmas -/

/-- The indices of `Names` whose (untrimmed) name and trimmed order are
both non-empty, with the line item each yields.  This is the amended
characterisation of the `LineItems` filter (the original claim instead
trims the name too; see the counterexample). -/
def selectedEntries (names orders : List String) : List LineItem :=
  (List.range names.length).filterMap fun i =>
    if names.getD i "" ≠ "" ∧ trimSpace (orders.getD i "") ≠ "" then
      some ⟨names.getD i "", trimSpace (orders.getD i "")⟩
    else none

theorem lineItemsUnsorted_eq_selected :
    ∀ names orders : List String, names.length ≤ orders.length →
      lineItemsUnsorted ⟨names, orders⟩ = selectedEntries names orders := by
  intro names
  induction names with
  | nil => intro orders h; rfl
  | cons a as ih =>
    intro orders h
    cases orders with
    | nil => simp at h
    | cons b bs =>
      have htl : as.length ≤ bs.length := by simpa using h
      have ihs := ih bs htl
      simp only [lineItemsUnsorted, selectedEntries] at ihs ⊢
      simp only [List.zip_cons_cons, List.filterMap_cons, List.length_cons,
        List.range_succ_eq_map, List.filterMap_map, Function.comp_def,
        List.getD_cons_succ, List.getD_cons_zero]
      rw [ihs]

theorem findRowAux_first_match (today : Date) :
    ∀ (pre : List (List String)) (r : List String) (post : List (List String)),
      (∀ q ∈ pre, parseDate (q.headD "") ≠ some today) →
      parseDate (r.headD "") = some today →
      findRowAux today (pre ++ r :: post) = .ok r := by
  intro pre
  induction pre with
  | nil =>
    intro r post _ hr
    simp only [List.nil_append, findRowAux, hr, if_true]
  | cons q pre ih =>
    intro r post hpre hr
    have hq : parseDate (q.headD "") ≠ some today := hpre q (List.mem_cons_self q pre)
    have hrest : ∀ x ∈ pre, parseDate (x.headD "") ≠ some today := fun x hx =>
      hpre x (List.mem_cons_of_mem q hx)
    rw [List.cons_append]
    cases hpd : parseDate (q.headD "") with
    | none =>
      simp only [findRowAux, hpd]
      exact ih r post hrest hr
    | some d =>
      have hne : d ≠ today := fun he => hq (by rw [hpd, he])
      simp only [findRowAux, hpd, if_neg hne]
      exact ih r post hrest hr

theorem findRowAux_no_match (today : Date) :
    ∀ l : List (List String), (∀ q ∈ l, parseDate (q.headD "") ≠ some today) →
      findRowAux today l = .error (noRowMsg today) := by
  intro l
  induction l with
  | nil => intro _; rfl
  | cons q rest ih =>
    intro h
    have hq : parseDate (q.headD "") ≠ some today := h q (List.mem_cons_self q rest)
    have hrest : ∀ x ∈ rest, parseDate (x.headD "") ≠ some today := fun x hx =>
      h x (List.mem_cons_of_mem q hx)
    cases hpd : parseDate (q.headD "") with
    | none =>
      simp only [findRowAux, hpd]
      exact ih hrest
    | some d =>
      have hne : d ≠ today := fun he => hq (by rw [hpd, he])
      simp only [findRowAux, hpd, if_neg hne]
      exact ih hrest

theorem summary_foldl_join (l : List LineItem) : ∀ init : String,
    l.foldl (fun buf li => buf ++ (li.Name ++ ": " ++ li.Order ++ "\n")) init =
      init ++ String.join (l.map fun li => li.Name ++ ": " ++ li.Order ++ "\n") := by
  induction l with
  | nil =>
    intro init
    apply String.ext
    simp
  | cons a l ih =>
    intro init
    apply String.ext
    simp [List.foldl_cons, ih]

theorem readAllAux_some_uniform :
    ∀ (fuel : Nat) (cs : List Char) (n : Nat) (acc rows : List (List String)),
      (∀ r ∈ acc, r.length = n) →
      readAllAux fuel cs (some n) acc = .ok rows →
      ∀ r ∈ rows, r.length = n := by
  intro fuel
  induction fuel with
  | zero =>
    intro cs n acc rows _ h
    simp [readAllAux] at h
  | succ fuel ih =>
    intro cs n acc rows hacc h
    simp only [readAllAux] at h
    by_cases he : (skipEmptyLines cs).isEmpty
    · rw [if_pos he] at h
      have : acc.reverse = rows := by
        cases h
        rfl
      subst this
      intro r hr
      exact hacc r (List.mem_reverse.mp hr)
    · rw [if_neg he] at h
      cases hp : parseRecord ((skipEmptyLines cs).length + 1) (skipEmptyLines cs) with
      | error e =>
        simp only [hp] at h
        cases h
      | ok pr =>
        obtain ⟨flds, rest⟩ := pr
        simp only [hp] at h
        by_cases hl : flds.length = n
        · rw [if_pos hl] at h
          refine ih rest n (flds :: acc) rows ?_ h
          intro r hr
          rcases List.mem_cons.mp hr with hr | hr
          · rw [hr]; exact hl
          · exact hacc r hr
        · rw [if_neg hl] at h
          cases h

theorem readAll_uniform (body : String) (rows : List (List String))
    (h : readAll body = .ok rows) :
    ∀ r ∈ rows, ∀ s ∈ rows, r.length = s.length := by
  unfold readAll at h
  simp only [readAllAux] at h
  by_cases he : (skipEmptyLines body.data).isEmpty
  · rw [if_pos he] at h
    have : ([] : List (List String)) = rows := by cases h; rfl
    subst this
    intro r hr
    cases hr
  · rw [if_neg he] at h
    cases hp : parseRecord ((skipEmptyLines body.data).length + 1) (skipEmptyLines body.data) with
    | error e =>
      simp only [hp] at h
      cases h
    | ok pr =>
      obtain ⟨flds, rest⟩ := pr
      simp only [hp] at h
      have huni := readAllAux_some_uniform body.length rest flds.length [flds] rows
        (by intro r hr; rw [List.mem_singleton.mp hr]) h
      intro r hr s hs
      rw [huni r hr, huni s hs]

/-! ## Claims -/

/-- C1 (counterexample): the claim says a line item appears only when
*both* the name and the order are non-empty *after trimming*.  The source
trims only the order: for the whitespace-only name `" "` (trimmed empty)
with order `"BLT"`, `LineItems` still returns the entry, so the claim's
filter condition is wrong about the name. -/
theorem LineItems_trims_only_order_counterexample :
    OrderOverview.LineItems ⟨[" "], ["BLT"]⟩ = [⟨" ", "BLT"⟩] ∧
      trimSpace " " = "" := by decide

/-- C1 (amended): for `Names`/`Orders` with `len(Names) ≤ len(Orders)`,
`LineItems()` consists exactly (as a multiset) of the entries at indices
where the *untrimmed* name and the *trimmed* order are non-empty, each
entry pairing the raw name with the trimmed order, and the result is
sorted by name ascending in byte/lexicographic order. -/
theorem LineItems_characterization (names orders : List String)
    (h : names.length ≤ orders.length) :
    (OrderOverview.LineItems ⟨names, orders⟩).Perm (selectedEntries names orders) ∧
      List.Sorted ByName (OrderOverview.LineItems ⟨names, orders⟩) := by
  constructor
  · rw [OrderOverview.LineItems, ← lineItemsUnsorted_eq_selected names orders h]
    exact List.perm_insertionSort ByName (lineItemsUnsorted ⟨names, orders⟩)
  · exact List.sorted_insertionSort ByName (lineItemsUnsorted ⟨names, orders⟩)

/-- C1 (witness): the characterization at the spec's own scenario. -/
theorem LineItems_characterization_witness :
    (OrderOverview.LineItems ⟨["Alice", "Bob", "Carol"], ["BLT", " ", "Soup"]⟩).Perm
        (selectedEntries ["Alice", "Bob", "Carol"] ["BLT", " ", "Soup"]) ∧
      List.Sorted ByName
        (OrderOverview.LineItems ⟨["Alice", "Bob", "Carol"], ["BLT", " ", "Soup"]⟩) :=
  LineItems_characterization ["Alice", "Bob", "Carol"] ["BLT", " ", "Soup"] (by decide)

/-- C2 (counterexample): with no names and no orders, `MaxCount() == 0`
and `OrderPercent()` computes `100 * 0.0 / 0.0`, which in IEEE-754 is NaN
— not the `0` the claim promises; the division by zero is not
special-cased anywhere in the source. -/
theorem OrderPercent_nan_counterexample :
    OrderOverview.OrderPercent ⟨[], []⟩ = F32.nan ∧ F32.nan ≠ F32.val 0 := by
  constructor
  · simp [OrderOverview.OrderPercent, OrderOverview.LineItems, lineItemsUnsorted,
      OrderOverview.MaxCount, F32.mul, F32.div]
  · simp

/-- C2 (amended): `OrderPercent()` equals `100 * len(LineItems()) /
MaxCount()` (as the float division of the exact values) when
`MaxCount() > 0`, and is NaN — not 0 — when `MaxCount() == 0`, because
the division by zero is not special-cased. -/
theorem OrderPercent_formula (o : OrderOverview) :
    (o.MaxCount ≠ 0 →
      o.OrderPercent =
        F32.val (100 * ((o.LineItems).length : ℚ) / ((o.MaxCount : ℚ)))) ∧
    (o.MaxCount = 0 → o.OrderPercent = F32.nan) := by
  obtain ⟨names, orders⟩ := o
  constructor
  · intro h
    have h2 : ((OrderOverview.MaxCount ⟨names, orders⟩ : ℚ)) ≠ 0 := Nat.cast_ne_zero.mpr h
    simp only [OrderOverview.OrderPercent, F32.mul, F32.div]
    rw [if_neg h2]
  · intro h
    have hnil : names = [] := by
      simpa [OrderOverview.MaxCount] using h
    subst hnil
    simp [OrderOverview.OrderPercent, OrderOverview.LineItems, lineItemsUnsorted,
      OrderOverview.MaxCount, F32.mul, F32.div]

/-- C2 (witness): the formula branch at the spec's scenario
(`MaxCount = 3`, two line items). -/
theorem OrderPercent_formula_witness :
    OrderOverview.OrderPercent ⟨["Alice", "Bob", "Carol"], ["BLT", " ", "Soup"]⟩ =
      F32.val (100 *
        ((OrderOverview.LineItems ⟨["Alice", "Bob", "Carol"], ["BLT", " ", "Soup"]⟩).length : ℚ) /
        ((OrderOverview.MaxCount ⟨["Alice", "Bob", "Carol"], ["BLT", " ", "Soup"]⟩ : ℚ))) :=
  (OrderPercent_formula ⟨["Alice", "Bob", "Carol"], ["BLT", " ", "Soup"]⟩).1 (by decide)

/-- C3 (counterexample): `CSVFromGoogleSheetsURL` never inspects the HTTP
status code, so a GET completing with status 404 whose body happens to be
valid CSV *succeeds* — no `FetchError`, and the endpoint proceeds past the
CSV stage (here to the later "error for today's row" stage), so the
response does not contain "error from csv". -/
theorem CSVFetch_ignores_status_counterexample :
    CSVFromGoogleSheetsURL (.response 404 "a,b\n") = .ok [["a", "b"]] ∧
      handle (.response 404 "a,b\n") 0 ⟨2021, 1, 2⟩ =
        .errToday ("error for today's row: " ++ noRowMsg ⟨2021, 1, 2⟩) := by decide

/-- C3 (amended): the fetch fails only on a transport error or when the
body fails to parse as CSV; the status code is ignored (the result for a
non-2xx status equals the result for any other status with the same
body).  Whenever the body fails to parse — which is how a typical 404
HTML page behaves — the endpoint responds HTTP 500 with a body that
starts with "error from csv". -/
theorem CSVFetch_error_paths (status status2 : Nat) (body : String) (e : CSVErr)
    (headerIndex : Nat) (today : Date) (h : readAll body = .error e) :
    CSVFromGoogleSheetsURL (.response status body) =
        CSVFromGoogleSheetsURL (.response status2 body) ∧
      CSVFromGoogleSheetsURL (.response status body) = .error (csvErrMsg e) ∧
      handle (.response status body) headerIndex today =
        .errCSV ("error from csv: " ++ csvErrMsg e) ∧
      ("error from csv".data).isPrefixOf ("error from csv: " ++ csvErrMsg e).data = true := by
  have hf : CSVFromGoogleSheetsURL (.response status body) = .error (csvErrMsg e) := by
    simp only [CSVFromGoogleSheetsURL, h]
  refine ⟨?_, hf, ?_, ?_⟩
  · simp only [CSVFromGoogleSheetsURL]
  · simp only [handle, hf]
  · cases e <;> decide

/-- C3 (witness): a 404 whose body is not field-count-uniform CSV does
produce the 500 "error from csv" response. -/
theorem CSVFetch_error_paths_witness :
    CSVFromGoogleSheetsURL (.response 404 "a,b\nc\n") =
        CSVFromGoogleSheetsURL (.response 200 "a,b\nc\n") ∧
      CSVFromGoogleSheetsURL (.response 404 "a,b\nc\n") = .error (csvErrMsg .fieldCount) ∧
      handle (.response 404 "a,b\nc\n") 3 ⟨2021, 1, 2⟩ =
        .errCSV ("error from csv: " ++ csvErrMsg .fieldCount) ∧
      ("error from csv".data).isPrefixOf
        ("error from csv: " ++ csvErrMsg .fieldCount).data = true :=
  CSVFetch_error_paths 404 200 "a,b\nc\n" .fieldCount 3 ⟨2021, 1, 2⟩ (by decide)

/-- C4: `findRowForToday` scans only `rows[headerIndex+1:]` in order;
every earlier row whose first cell does not parse to today's date —
because it is malformed (parse failure, skipped without error) or a
different date — is passed over, and the first row whose parsed date has
today's year, month and day is returned. -/
theorem findRowForToday_first_match (rows : List (List String)) (headerIndex : Nat)
    (today : Date) (pre : List (List String)) (r : List String)
    (post : List (List String))
    (hsplit : rows.drop (headerIndex + 1) = pre ++ r :: post)
    (hpre : ∀ q ∈ pre, parseDate (q.headD "") ≠ some today)
    (hr : parseDate (r.headD "") = some today) :
    findRowForToday rows headerIndex today = .ok r := by
  unfold findRowForToday
  rw [hsplit]
  exact findRowAux_first_match today pre r post hpre hr

/-- C4 (witness): the spec's example — dates
`["2021-01-01","2021-01-02","bad-date","2021-01-02"]` with today
2021-01-02 — returns the row at index 1 of the scanned rows (the first
match; the malformed row and the duplicate are never reached). -/
theorem findRowForToday_first_match_witness :
    findRowForToday
        [["header"], ["2021-01-01", "soup"], ["2021-01-02", "first"],
          ["bad-date", "x"], ["2021-01-02", "second"]] 0 ⟨2021, 1, 2⟩ =
      .ok ["2021-01-02", "first"] :=
  findRowForToday_first_match
    [["header"], ["2021-01-01", "soup"], ["2021-01-02", "first"],
      ["bad-date", "x"], ["2021-01-02", "second"]] 0 ⟨2021, 1, 2⟩
    [["2021-01-01", "soup"]] ["2021-01-02", "first"]
    [["bad-date", "x"], ["2021-01-02", "second"]]
    (by decide) (by decide) (by decide)

/-- C5: the handler does *not* short-circuit to HTTP 500 when the fetched
rows are too short for the header index: `header := rows[headerIndex]` is
unguarded, so `len(rows) <= headerIndex` (default `header=3` with, e.g.,
an empty CSV body) panics with an index-out-of-range instead of writing a
500 — the bounds validation the spec assigns to the caller is missing. -/
theorem handle_short_rows_panics :
    readAll "" = .ok [] ∧
      handle (.response 200 "") 3 ⟨2021, 1, 2⟩ = .panicHeaderIndex := by decide

/-- C6 (counterexample): the CSV reader is used in its default
configuration, where `FieldsPerRecord = 0` *enforces* the first record's
field count on all later records: the body `"a,b\nc\n"`, well-formed CSV
with rows of 2 and 1 fields, makes the fetch fail with the field-count
error rather than return both rows. -/
theorem CSVFetch_variable_rows_counterexample :
    CSVFromGoogleSheetsURL (.response 200 "a,b\nc\n") =
      .error (csvErrMsg .fieldCount) := by decide

/-- C6 (amended): CSV parsing does *not* tolerate variable row lengths:
whenever `ReadAll` succeeds, every returned row has the same field count
(records with a differing count fail parsing with `ErrFieldCount`, as the
counterexample shows; quoted fields and embedded commas are accepted). -/
theorem readAll_enforces_uniform_field_count :
    (∀ (body : String) (rows : List (List String)), readAll body = .ok rows →
        ∀ r ∈ rows, ∀ s ∈ rows, r.length = s.length) ∧
      readAll "a,b\nc\n" = .error .fieldCount ∧
      readAll "a,b\n\"c,d\",e\n" = .ok [["a", "b"], ["c,d", "e"]] :=
  ⟨readAll_uniform, by decide, by decide⟩

/-- C6 (witness): the uniformity consequence evaluated on a concrete
successful parse. -/
theorem readAll_enforces_uniform_field_count_witness :
    (["a", "b"] : List String).length = (["c", "d"] : List String).length :=
  readAll_enforces_uniform_field_count.1 "a,b\nc,d\n" [["a", "b"], ["c", "d"]]
    (by decide) ["a", "b"] (by simp) ["c", "d"] (by simp)

/-- C7: when no scanned row's first cell parses to today's date,
`findRowForToday` returns no row and fails with the not-found error whose
message names the current date (the `%v` rendering of "now" opens with
the calendar date). -/
theorem findRowForToday_not_found (rows : List (List String)) (headerIndex : Nat)
    (today : Date)
    (h : ∀ q ∈ rows.drop (headerIndex + 1), parseDate (q.headD "") ≠ some today) :
    findRowForToday rows headerIndex today = .error (noRowMsg today) ∧
      noRowMsg today = "no row found for today (" ++ dateString today ++ ")" := by
  constructor
  · unfold findRowForToday
    exact findRowAux_no_match today (rows.drop (headerIndex + 1)) h
  · rfl

/-- C7 (witness): no row for 2021-01-02 among rows dated 2021-01-01. -/
theorem findRowForToday_not_found_witness :
    findRowForToday [["header"], ["2021-01-01", "soup"]] 0 ⟨2021, 1, 2⟩ =
        .error (noRowMsg ⟨2021, 1, 2⟩) ∧
      noRowMsg ⟨2021, 1, 2⟩ =
        "no row found for today (" ++ dateString ⟨2021, 1, 2⟩ ++ ")" :=
  findRowForToday_not_found [["header"], ["2021-01-01", "soup"]] 0 ⟨2021, 1, 2⟩
    (by decide)

/-- C8: `Summary()` is the concatenation, in `LineItems()` order, of one
`"<name>: <order>"` line per line item, each newline-terminated; on the
spec's scenario it is exactly `"Alice: BLT\nCarol: Soup\n"`. -/
theorem Summary_lines :
    (∀ o : OrderOverview,
        o.Summary =
          String.join ((o.LineItems).map fun li => li.Name ++ ": " ++ li.Order ++ "\n")) ∧
      OrderOverview.Summary ⟨["Alice", "Bob", "Carol"], ["BLT", " ", "Soup"]⟩ =
        "Alice: BLT\nCarol: Soup\n" := by
  constructor
  · intro o
    unfold OrderOverview.Summary
    rw [summary_foldl_join]
    exact String.empty_append _
  · decide

/-- C9: with at least as many orders as names (the in-bounds case of the
source's `o.Orders[i]` access), the number of line items never exceeds
`MaxCount()`, the number of name slots. -/
theorem LineItems_length_le_MaxCount (names orders : List String)
    (_h : names.length ≤ orders.length) :
    (OrderOverview.LineItems ⟨names, orders⟩).length ≤
      OrderOverview.MaxCount ⟨names, orders⟩ := by
  have hperm := (List.perm_insertionSort ByName (lineItemsUnsorted ⟨names, orders⟩)).length_eq
  simp only [OrderOverview.LineItems, OrderOverview.MaxCount]
  rw [hperm]
  calc (lineItemsUnsorted ⟨names, orders⟩).length
      ≤ (names.zip orders).length := List.length_filterMap_le _ _
    _ ≤ names.length := by rw [List.length_zip]; exact min_le_left _ _

/-- C9 (witness): 2 line items from 3 name slots. -/
theorem LineItems_length_le_MaxCount_witness :
    (OrderOverview.LineItems ⟨["Alice", "Bob", "Carol"], ["BLT", " ", "Soup"]⟩).length ≤
      OrderOverview.MaxCount ⟨["Alice", "Bob", "Carol"], ["BLT", " ", "Soup"]⟩ :=
  LineItems_length_le_MaxCount ["Alice", "Bob", "Carol"] ["BLT", " ", "Soup"] (by decide)

/-- C10: the four pointer-receiver methods write no field of the
receiver: after each call the receiver's `Names` and `Orders` equal their
values before the call. -/
theorem methods_preserve_receiver_fields (o : OrderOverview) :
    ((o.LineItemsSt).2.Names = o.Names ∧ (o.LineItemsSt).2.Orders = o.Orders) ∧
      ((o.MaxCountSt).2.Names = o.Names ∧ (o.MaxCountSt).2.Orders = o.Orders) ∧
      ((o.OrderPercentSt).2.Names = o.Names ∧ (o.OrderPercentSt).2.Orders = o.Orders) ∧
      ((o.SummarySt).2.Names = o.Names ∧ (o.SummarySt).2.Orders = o.Orders) :=
  ⟨⟨rfl, rfl⟩, ⟨rfl, rfl⟩, ⟨rfl, rfl⟩, ⟨rfl, rfl⟩⟩
